import Mathlib

/-!
Verification development for the Podcastwise transcript-matching core.

This file shallowly embeds the matching / scoring / validation logic of
`src/youtube.py` and `src/stratechery.py` (plus the transcript-cache and
not-found-registry persistence layer) into Lean, and proves the stated
properties about it.

Embedding conventions:
- Python floats are modelled as `ℚ`; `round(x, 2)` is modelled as rounding
  to the nearest multiple of 1/100 (every value reachable in this code is an
  exact multiple of 1/100, so the tie-breaking convention is irrelevant).
- Python strings are Lean `String`s; `str.lower()` / `\w` / `\s` / `\d` use
  their ASCII meaning (all the regexes in the source are ASCII-oriented).
- Each regular expression of the source is hand-translated into a
  deterministic scanner.  For every pattern used here, the greedy
  sub-expressions are followed by continuations drawn from disjoint
  character classes, so Python's backtracking never changes the outcome and
  the deterministic translation is exact.  `.` / `$` semantics assume the
  single-line titles this code operates on (no embedded newline).
- File I/O (the JSON not-found registry, the transcript cache) is modelled
  as explicit state values.
- `difflib.SequenceMatcher.ratio` (Python standard library, external to the
  repository) is abstracted as a function parameter `sim`; every theorem
  about the blog matcher is proved for an arbitrary such function.
-/

namespace Podcastwise

/-! ## Character classes and basic Python string operations -/

/-- Python `\s` (ASCII): space, tab, newline, carriage return, vertical tab, form feed. -/
def pySpace (c : Char) : Bool :=
  c = ' ' || c = '\t' || c = '\n' || c = '\r' || c = '\x0b' || c = '\x0c'

/-- Python `\w` (ASCII): letters, digits, underscore. -/
def wordChar (c : Char) : Bool :=
  c.isAlphanum || c = '_'

/-- Regex `[A-Z]`. -/
def upperAZ (c : Char) : Bool :=
  'A' ≤ c && c ≤ 'Z'

/-- Regex `[a-z]`. -/
def lowerAZ (c : Char) : Bool :=
  'a' ≤ c && c ≤ 'z'

/-- Regex `[a-zA-Z]`. -/
def asciiLetter (c : Char) : Bool :=
  upperAZ c || lowerAZ c

/-- Python `str.lower()` (ASCII letters). -/
def lowerS (s : String) : String :=
  String.mk (s.toList.map Char.toLower)

/-- Drop trailing whitespace of a character list. -/
def dropTrailingWs (l : List Char) : List Char :=
  (l.reverse.dropWhile pySpace).reverse

/-- Python `str.strip()` on a character list. -/
def pyStrip (l : List Char) : List Char :=
  dropTrailingWs (l.dropWhile pySpace)

/-- Python `str.strip()` on a string. -/
def pyStripS (s : String) : String :=
  String.mk (pyStrip s.toList)

/-- Helper for `pySplit`: accumulate the current word (reversed) while scanning. -/
def pySplitGo : List Char → List Char → List String
  | acc, [] => if acc.isEmpty then [] else [String.mk acc.reverse]
  | acc, c :: t =>
    if pySpace c then
      if acc.isEmpty then pySplitGo [] t else String.mk acc.reverse :: pySplitGo [] t
    else
      pySplitGo (c :: acc) t

/-- Python `str.split()` with no argument: split on whitespace runs, dropping empties. -/
def pySplit (s : String) : List String :=
  pySplitGo [] s.toList

/-! ## Regex scanners for title cleaning (src/youtube.py build_search_query) -/

/-- `re.sub(r'^#?\d+\s*[-–:]\s*', '', title)`: strip a leading episode-number
marker such as `#123 - `.  Returns the input unchanged when the pattern does
not match at the start. -/
def stripEpNum (l : List Char) : List Char :=
  let body := match l with
    | '#' :: t => t
    | _ => l
  if (body.takeWhile Char.isDigit).isEmpty then l
  else
    let r1 := (body.dropWhile Char.isDigit).dropWhile pySpace
    match r1 with
    | c :: t => if c = '-' || c = '–' || c = ':' then t.dropWhile pySpace else l
    | [] => l

/-- `re.sub(r'^Ep\.?\s*\d+\s*[-–:]\s*', '', title, flags=re.IGNORECASE)`:
strip a leading `Ep. 45:`-style marker. -/
def stripEpWordNum (l : List Char) : List Char :=
  match l with
  | c1 :: c2 :: t =>
    if (c1 = 'E' || c1 = 'e') && (c2 = 'p' || c2 = 'P') then
      let t1 := match t with
        | '.' :: r => r
        | _ => t
      let t2 := t1.dropWhile pySpace
      if (t2.takeWhile Char.isDigit).isEmpty then l
      else
        let r1 := (t2.dropWhile Char.isDigit).dropWhile pySpace
        match r1 with
        | c :: r2 => if c = '-' || c = '–' || c = ':' then r2.dropWhile pySpace else l
        | [] => l
    else l
  | _ => l

/-- Helper for `cutPipeSuffix`: the kept text before the first `|`, or `none`
when there is no `|`. -/
def pipeCutAux : List Char → Option (List Char)
  | [] => none
  | '|' :: _ => some []
  | c :: t => (pipeCutAux t).map (fun p => c :: p)

/-- `re.sub(r'\s*\|.*$', '', s)`: remove everything from the first `|` on,
including the whitespace run right before it. -/
def cutPipeSuffix (l : List Char) : List Char :=
  match pipeCutAux l with
  | some p => dropTrailingWs p
  | none => l

/-- Helper for `cutParenSuffix`: kept text before the first `(` that is
eventually closed, or `none` when the pattern cannot match. -/
def parenCutAux : List Char → Option (List Char)
  | [] => none
  | '(' :: t => if t.contains ')' then some [] else (parenCutAux t).map (fun p => '(' :: p)
  | c :: t => (parenCutAux t).map (fun p => c :: p)

/-- `re.sub(r'\s*\([^)]*\).*$', '', s)`: remove everything from the first
closed parenthetical on, including the whitespace run right before it. -/
def cutParenSuffix (l : List Char) : List Char :=
  match parenCutAux l with
  | some p => dropTrailingWs p
  | none => l

/-- Steps 2 of `build_search_query`: clean the episode title (strip episode
numbers trailing pipe-suffixes, then `strip()`). -/
def cleanEpisodeTitle (title : String) : String :=
  String.mk (pyStrip (cutPipeSuffix (stripEpWordNum (stripEpNum title.toList))))

/-- Step 1 of `build_search_query` (also used by `find_best_match`): clean the
podcast name by removing a closed parenthetical suffix and a pipe suffix,
then `strip()`. -/
def cleanPodcastName (s : String) : String :=
  String.mk (pyStrip (cutPipeSuffix (cutParenSuffix s.toList)))

/-! ## Generic scanners for the guest-name regexes

A "word parser" consumes a prefix of the input and returns the consumed
characters verbatim together with the rest.  Matched text is kept verbatim
because Python's `group(...)` returns the original spans (including the
original whitespace), which the source code then splits / strips. -/

/-- One regex word `FIRST REST+` (e.g. `[A-Z][a-z]+`): an initial character
satisfying `fst` followed by one or more characters satisfying `rest`. -/
def reWord (fst rest : Char → Bool) : List Char → Option (List Char × List Char)
  | c :: t =>
    if fst c then
      let w := t.takeWhile rest
      if w.isEmpty then none else some (c :: w, t.dropWhile rest)
    else none
  | [] => none

/-- Regex `[A-Z][a-z]+`. -/
def capWord : List Char → Option (List Char × List Char) :=
  reWord upperAZ lowerAZ

/-- Regex `[A-Z][a-z]+` under `re.IGNORECASE` (any letter followed by letters). -/
def capWordCI : List Char → Option (List Char × List Char) :=
  reWord asciiLetter asciiLetter

/-- Regex `\s+`: one or more whitespace characters, consumed verbatim. -/
def wsSome (l : List Char) : Option (List Char × List Char) :=
  let sp := l.takeWhile pySpace
  if sp.isEmpty then none else some (sp, l.dropWhile pySpace)

/-- Greedy `(\s+WORD)*` repetition (fuel-indexed; the fuel is always the
remaining input length, which bounds the number of iterations since every
iteration consumes at least one character). -/
def repWsWord (wp : List Char → Option (List Char × List Char)) :
    Nat → List Char → List Char × List Char
  | 0, l => ([], l)
  | fuel + 1, l =>
    match wsSome l with
    | none => ([], l)
    | some (sp, r1) =>
      match wp r1 with
      | none => ([], l)
      | some (w, r2) =>
        let (more, rest) := repWsWord wp fuel r2
        (sp ++ w ++ more, rest)

/-- Regex `[A-Z][a-z]+(?:\s+[A-Z][a-z]+)+`: two or more capitalized words. -/
def nameMulti (l : List Char) : Option (List Char × List Char) :=
  (capWord l).bind fun p =>
    let (more, rest) := repWsWord capWord p.2.length p.2
    if more.isEmpty then none else some (p.1 ++ more, rest)

/-- Regex `WORD(?:\s+WORD)?`: one word with an optional second word (greedy). -/
def name1or2 (wp : List Char → Option (List Char × List Char)) (l : List Char) :
    Option (List Char × List Char) :=
  (wp l).map fun p =>
    match wsSome p.2 with
    | some (sp, r2) =>
      match wp r2 with
      | some (w2, r3) => (p.1 ++ sp ++ w2, r3)
      | none => p
    | none => p

/-- One `\s*[&,]\s*NAME` separator-plus-name chunk (consumed verbatim). -/
def sepName (np : List Char → Option (List Char × List Char)) (l : List Char) :
    Option (List Char × List Char) :=
  let sp := l.takeWhile pySpace
  match l.dropWhile pySpace with
  | c :: t =>
    if c = '&' || c = ',' then
      let sp2 := t.takeWhile pySpace
      (np (t.dropWhile pySpace)).map fun q => (sp ++ c :: (sp2 ++ q.1), q.2)
    else none
  | [] => none

/-- Greedy `(\s*[&,]\s*NAME)*` repetition (fuel-indexed as in `repWsWord`). -/
def repSep (np : List Char → Option (List Char × List Char)) :
    Nat → List Char → List Char × List Char
  | 0, l => ([], l)
  | fuel + 1, l =>
    match sepName np l with
    | none => ([], l)
    | some (chunk, rest) =>
      let (more, fin) := repSep np fuel rest
      (chunk ++ more, fin)

/-- Regex `\s*[DELIMS]`: optional whitespace then one delimiter character,
consumed verbatim. -/
def wsThenDelim (delims : List Char) (l : List Char) : Option (List Char × List Char) :=
  let sp := l.takeWhile pySpace
  match l.dropWhile pySpace with
  | c :: t => if delims.contains c then some (sp ++ [c], t) else none
  | [] => none

/-- Leftmost-match search: try the position-local matcher `tryAt` (which also
receives the previous character, for `\b` checks) at every position from left
to right. -/
def scanSearch (tryAt : Option Char → List Char → Option (List Char)) :
    Option Char → List Char → Option (List Char)
  | _, [] => none
  | prev, c :: t =>
    match tryAt prev (c :: t) with
    | some x => some x
    | none => scanSearch tryAt (some c) t

/-- A `\b` boundary right before a word character: the previous character must
be absent or a non-word character. -/
def boundaryNoWord (prev : Option Char) : Bool :=
  match prev with
  | none => true
  | some p => !(wordChar p)

/-! ## extract_guest_names (src/youtube.py) -/

/-- The `non_name_words` blocklist from `extract_guest_names`. -/
def non_name_words : List String :=
  ["weekly", "daily", "monthly", "annual", "special", "bonus", "live",
   "episode", "update", "news", "market", "breaking", "exclusive",
   "part", "volume", "series", "chapter", "intro", "outro", "preview",
   "the", "and", "with", "for", "from", "about", "into", "over"]

/-- `is_likely_name` from `extract_guest_names`: at least two
whitespace-separated parts, first part not a common non-name word, all parts
starting with an uppercase letter. -/
def is_likely_name (s : String) : Bool :=
  let parts := pySplit s
  match parts with
  | p0 :: _ :: _ =>
    !(non_name_words.contains (lowerS p0)) &&
      parts.all (fun p =>
        match p.toList with
        | c :: _ => c.isUpper
        | [] => true)
  | _ => false

/-- Pattern 1 of `extract_guest_names`:
`^([A-Z][a-z]+(?:\s+[A-Z][a-z]+)+)(?:\s*[&,]\s*([A-Z][a-z]+(?:\s+[A-Z][a-z]+)+))*\s*[:–\-]`,
returning `group(0)` (the whole matched span). -/
def pat1Match (l : List Char) : Option (List Char) :=
  (nameMulti l).bind fun p =>
    let (sep, r2) := repSep nameMulti p.2.length p.2
    (wsThenDelim [':', '–', '-'] r2).map fun d => p.1 ++ sep ++ d.1

/-- `re.split(r'\s*[&,]\s*', s)`: split on `&` / `,` separators.  The
separator whitespace is left attached to the pieces here; the caller strips
every piece right after (as the source does with `name.strip()`), which makes
the results identical. -/
def splitSepGo : List Char → List Char → List (List Char)
  | acc, [] => [acc.reverse]
  | acc, c :: t =>
    if c = '&' || c = ',' then acc.reverse :: splitSepGo [] t
    else splitSepGo (c :: acc) t

/-- The role-title alternation of pattern 2a, in the source's order. -/
def roleList : List String :=
  ["CEO", "CTO", "CFO", "CPO", "COO", "CSO", "President", "Chairman",
   "Co-Founder", "Co-CEO"]

/-- Continuation of pattern 2a after a role word:
`\s+([A-Z][a-z]+\s+[A-Z][a-z]+)`, returning `group(1)` verbatim. -/
def roleFollowParse (l : List Char) : Option (List Char) :=
  (wsSome l).bind fun p1 =>
  (capWord p1.2).bind fun p2 =>
  (wsSome p2.2).bind fun p3 =>
  (capWord p3.2).map fun p4 => p2.1 ++ p3.1 ++ p4.1

/-- Position-local matcher for pattern 2a
`\b(?:CEO|CTO|CFO|CPO|COO|CSO|President|Chairman|Co-Founder|Co-CEO)\s+([A-Z][a-z]+\s+[A-Z][a-z]+)`. -/
def tryRoleAt (prev : Option Char) (l : List Char) : Option (List Char) :=
  if boundaryNoWord prev then
    roleList.findSome? fun r =>
      if r.toList.isPrefixOf l then roleFollowParse (l.drop r.length) else none
  else none

/-- Match the literal `with` (case-sensitively or case-insensitively),
returning the rest of the input. -/
def withKeyAt (ci : Bool) (l : List Char) : Option (List Char) :=
  match l with
  | c1 :: c2 :: c3 :: c4 :: t =>
    if ci then
      if c1.toLower = 'w' && c2.toLower = 'i' && c3.toLower = 't' && c4.toLower = 'h'
      then some t else none
    else
      if c1 = 'w' && c2 = 'i' && c3 = 't' && c4 = 'h' then some t else none
  | _ => none

/-- Position-local matcher for pattern 2b
`\bwith\s+([A-Z][a-z]+\s+[A-Z][a-z]+)` (case-sensitive, exactly two words). -/
def tryWithStrictAt (prev : Option Char) (l : List Char) : Option (List Char) :=
  if boundaryNoWord prev then
    (withKeyAt false l).bind fun r =>
    (wsSome r).bind fun p1 =>
    (capWord p1.2).bind fun p2 =>
    (wsSome p2.2).bind fun p3 =>
    (capWord p3.2).map fun p4 => p2.1 ++ p3.1 ++ p4.1
  else none

/-- Pattern 3 of `extract_guest_names`:
`^([A-Z][a-z]+(?:\s+[A-Z][a-z]+)+)\s+on\s+`, returning `group(1)`. -/
def pat3Match (l : List Char) : Option (List Char) :=
  (nameMulti l).bind fun p =>
  (wsSome p.2).bind fun q =>
  match q.2 with
  | 'o' :: 'n' :: r3 => (wsSome r3).map fun _ => p.1
  | _ => none

/-- Patterns 2b and 3 of `extract_guest_names` (reached when pattern 1 found
no valid names and pattern 2a either did not match or produced an unlikely
name). -/
def guestsAfterRole (l : List Char) : List String :=
  match scanSearch tryWithStrictAt none l with
  | some nmc =>
    let nm := String.mk (pyStrip nmc)
    if is_likely_name nm then [nm] else []
  | none =>
    match pat3Match l with
    | some nmc =>
      let nm := String.mk (pyStrip nmc)
      if 2 ≤ (pySplit nm).length then [nm] else []
    | none => []

/-- `extract_guest_names` from src/youtube.py: the ordered cascade of the
four guest-name heuristics ("first match wins", with the source's exact
fall-through behaviour). -/
def extract_guest_names (title : String) : List String :=
  let l := title.toList
  let fromPat1 :=
    match pat1Match l with
    | some full =>
      let names_part := dropTrailingWs full.dropLast
      (splitSepGo [] names_part).foldr
        (fun piece acc =>
          let nm := String.mk (pyStrip piece)
          if nm ≠ "" && is_likely_name nm then nm :: acc else acc) []
    | none => []
  if !fromPat1.isEmpty then fromPat1
  else
    match scanSearch tryRoleAt none l with
    | some nmc =>
      let nm := String.mk (pyStrip nmc)
      if is_likely_name nm then [nm] else guestsAfterRole l
    | none => guestsAfterRole l

/-! ## Data model (src/podcast_db.py, src/youtube.py) -/

/-- `Episode` from src/podcast_db.py, restricted to the fields the matching
core reads (`id`, `title`, `podcast_name`, `podcast_author`,
`duration_seconds`); the playback/date/feed fields are never consulted by
the matching logic. -/
structure Episode where
  id : Int
  title : String
  podcast_name : String
  podcast_author : String
  duration_seconds : ℚ
deriving DecidableEq

/-- `YouTubeMatch` from src/youtube.py. -/
structure YouTubeMatch where
  video_id : String
  title : String
  url : String
  channel : Option String
  duration : Option Int
deriving DecidableEq

/-- `MatchResult` from src/youtube.py (`match_` models the `match` field,
which is a Lean keyword). -/
structure MatchResult where
  match_ : Option YouTubeMatch
  confidence : ℚ
  reason : String
  guest_names_found : List String
  guest_names_missing : List String
deriving DecidableEq

/-! ## build_search_query (src/youtube.py) -/

/-- The inline pattern A of `build_search_query`:
`^([A-Z][a-z]+(?:\s+[A-Z][a-z]+)?(?:\s*[&,]\s*[A-Z][a-z]+(?:\s+[A-Z][a-z]+)?)*)\s*[:\-–]`,
returning `group(1)` (names and separators, without the trailing delimiter). -/
def patAMatch (l : List Char) : Option (List Char) :=
  (name1or2 capWord l).bind fun p =>
    let (sep, r2) := repSep (name1or2 capWord) p.2.length p.2
    (wsThenDelim [':', '-', '–'] r2).map fun _ => p.1 ++ sep

/-- Position-local matcher for the inline pattern B of `build_search_query`:
`\bwith\s+([A-Z][a-z]+(?:\s+[A-Z][a-z]+)?)` with `re.IGNORECASE`. -/
def tryWithCIAt (prev : Option Char) (l : List Char) : Option (List Char) :=
  if boundaryNoWord prev then
    (withKeyAt true l).bind fun r =>
    (wsSome r).bind fun p1 =>
    (name1or2 capWordCI p1.2).map fun p2 => p2.1
  else none

/-- Step 3 of `build_search_query`: the inline guest-name extraction applied
to the cleaned title (empty string when neither pattern matches). -/
def inlineGuestNames (title : String) : String :=
  match patAMatch title.toList with
  | some g => String.mk g
  | none =>
    match scanSearch tryWithCIAt none title.toList with
    | some g => String.mk g
    | none => ""

/-- `build_search_query` from src/youtube.py.  `title[:60]`-style slices are
character slices (`String.take`). -/
def build_search_query (episode : Episode) (variant : String) : String :=
  let podcast_name := cleanPodcastName episode.podcast_name
  let title := cleanEpisodeTitle episode.title
  let guest_names := inlineGuestNames title
  if variant = "title_only" then
    if title.length > 60 then String.mk (title.toList.take 60) else title
  else if variant = "short_title" then
    pyStripS (podcast_name ++ " " ++
      (if title.length > 40 then String.mk (title.toList.take 40) else title))
  else if variant = "guest_focused" && guest_names ≠ "" then
    pyStripS (podcast_name ++ " " ++ guest_names)
  else if guest_names ≠ "" then
    pyStripS (podcast_name ++ " " ++ guest_names)
  else
    pyStripS (podcast_name ++ " " ++
      (if title.length > 60 then String.mk (title.toList.take 60) else title))

/-! ## search_youtube_with_fallback (src/youtube.py)

The network search itself (`search_youtube`, a yt-dlp call) is external
I/O; it is abstracted as a function `searchFn : String → List YouTubeMatch`
from query strings to result lists. -/

/-- The fallback loop of `search_youtube_with_fallback` over a list of query
variants: skip empty queries, return the first non-empty result list. -/
def searchFallbackOver (searchFn : String → List YouTubeMatch) (episode : Episode) :
    List String → List YouTubeMatch
  | [] => []
  | v :: vs =>
    let query := build_search_query episode v
    if query = "" then searchFallbackOver searchFn episode vs
    else
      match searchFn query with
      | [] => searchFallbackOver searchFn episode vs
      | m :: ms => m :: ms

/-- `search_youtube_with_fallback` from src/youtube.py: try the four query
variants in order. -/
def search_youtube_with_fallback (searchFn : String → List YouTubeMatch)
    (episode : Episode) : List YouTubeMatch :=
  searchFallbackOver searchFn episode ["primary", "guest_focused", "short_title", "title_only"]

/-- Python's `sub in s` substring test, on character lists. -/
def substrIn (p l : List Char) : Bool :=
  decide (p <:+: l)

/-! ## name_appears_in_text (src/youtube.py) -/

/-- A `\b` boundary between two positions: exactly one side is a word
character (an absent side counts as non-word). -/
def boundaryBetween (a b : Option Char) : Bool :=
  (match a with | some c => wordChar c | none => false) ≠
    (match b with | some c => wordChar c | none => false)

/-- Try regex `\bPAT\b` (with `PAT` a literal) at the current position. -/
def tryWordBounded (pat : List Char) (prev : Option Char) (l : List Char) : Bool :=
  match pat with
  | [] => false
  | p0 :: _ =>
    boundaryBetween prev (some p0) &&
    pat.isPrefixOf l &&
    boundaryBetween (pat.getLast?) ((l.drop pat.length).head?)

/-- Leftmost search for `\bPAT\b` (literal `PAT`). -/
def searchWordBounded (pat : List Char) : Option Char → List Char → Bool
  | _, [] => false
  | prev, c :: t => tryWordBounded pat prev (c :: t) || searchWordBounded pat (some c) t

/-- Try regex `\bFIRST\s+I\.?\b` at the current position (`FIRST` the literal
first name, `I` the literal last-name initial).  After the initial, the
optional dot plus word boundary reduce to: the next character is absent or a
non-word character (the backtracking over `\.?` is resolved exactly as
Python's engine does). -/
def tryFirstInitial (first : List Char) (ini : Char) (prev : Option Char) (l : List Char) : Bool :=
  match first with
  | [] => false
  | f0 :: _ =>
    boundaryBetween prev (some f0) &&
    first.isPrefixOf l &&
    (let r1 := l.drop first.length
     match wsSome r1 with
     | some (_, r2) =>
       match r2 with
       | c :: rest =>
         c = ini &&
           (match rest with
            | [] => wordChar ini
            | '.' :: rest2 =>
              (match rest2 with
               | d :: _ => wordChar d
               | [] => false) || wordChar ini
            | d :: _ => boundaryBetween (some ini) (some d))
       | [] => false
     | none => false)

/-- Leftmost search for `\bFIRST\s+I\.?\b`. -/
def searchFirstInitial (first : List Char) (ini : Char) : Option Char → List Char → Bool
  | _, [] => false
  | prev, c :: t => tryFirstInitial first ini prev (c :: t) || searchFirstInitial first ini (some c) t

/-- `name_appears_in_text` from src/youtube.py: exact (case-insensitive)
substring, both first and last name present, `First L.`-style initial form,
or the last name alone at a word boundary. -/
def name_appears_in_text (name text : String) : Bool :=
  let text_lower := (lowerS text).toList
  let name_lower := (lowerS name).toList
  if substrIn name_lower text_lower then true
  else
    let parts := pySplit name
    match parts with
    | p1 :: p2 :: rest =>
      let first_name := (lowerS p1).toList
      let last_name := (lowerS ((p2 :: rest).getLast (by simp))).toList
      if substrIn first_name text_lower && substrIn last_name text_lower then true
      else
        match last_name with
        | li :: _ =>
          if searchFirstInitial first_name li none text_lower then true
          else searchWordBounded last_name none text_lower
        | [] => false
    | _ => false

/-! ## find_best_match (src/youtube.py) -/

/-- One scored candidate: the per-candidate dict built by the scoring loop of
`find_best_match` (`score` / `match` / `guests_found` / `guests_missing` /
`reasons`). -/
structure ScoredMatch where
  score : Int
  match_ : YouTubeMatch
  guests_found : List String
  guests_missing : List String
  reasons : List String
deriving DecidableEq

/-- The guest-name part of the scoring loop: `+20` and append to
`guests_found` for each expected guest found in the candidate title, `-25`
and append to `guests_missing` otherwise (list order preserved).  The
apostrophes of the source's reason strings are omitted. -/
def guestScan : List String → String → Int × List String × List String × List String
  | [], _ => (0, [], [], [])
  | g :: gs, t =>
    let r := guestScan gs t
    if name_appears_in_text g t then
      (r.1 + 20, g :: r.2.1, r.2.2.1, ("Guest " ++ g ++ " found in title") :: r.2.2.2)
    else
      (r.1 - 25, r.2.1, g :: r.2.2.1, ("Guest " ++ g ++ " NOT in title") :: r.2.2.2)

/-- The channel signal: `+15` when the cleaned, lowercased podcast name and
the candidate's channel are substrings of each other (skipped when the
channel is absent or empty, per Python truthiness). -/
def channelScore (episode : Episode) (m : YouTubeMatch) : Int × List String :=
  match m.channel with
  | some ch =>
    if ch ≠ "" then
      let p := (lowerS (cleanPodcastName episode.podcast_name)).toList
      let c := (lowerS ch).toList
      if substrIn p c || substrIn c p then (15, ["Channel matches podcast"]) else (0, [])
    else (0, [])
  | none => (0, [])

/-- The duration signal: `+10` when within 10% of the episode duration, `+5`
within 20% (skipped when the candidate duration is absent or zero, or the
episode duration is not positive). -/
def durationScore (episode : Episode) (m : YouTubeMatch) : Int × List String :=
  match m.duration with
  | some d =>
    if d ≠ 0 ∧ 0 < episode.duration_seconds then
      let ratio : ℚ := |(d : ℚ) - episode.duration_seconds| / episode.duration_seconds
      if ratio < 1/10 then (10, ["Duration within 10%"])
      else if ratio < 1/5 then (5, ["Duration within 20%"])
      else (0, [])
    else (0, [])
  | none => (0, [])

/-- The `stop_words` set of `find_best_match`. -/
def stop_words : List String :=
  ["the", "a", "an", "and", "or", "but", "in", "on", "at", "to", "for", "of",
   "with", "by", "is", "it", "|", "-", "–"]

/-- `set(title.lower().split()) - stop_words`. -/
def titleWords (t : String) : Finset String :=
  (pySplit (lowerS t)).toFinset \ stop_words.toFinset

/-- The shared-word signal: `+1` per common non-stopword token. -/
def wordScore (episode : Episode) (m : YouTubeMatch) : Int × List String :=
  let common := titleWords episode.title ∩ titleWords m.title
  if common.card ≠ 0 then ((common.card : Int), [toString common.card ++ " common words"])
  else (0, [])

/-- Score one candidate against the episode, as the loop body of
`find_best_match` does (signals in source order: guests, channel, duration,
shared words). -/
def scoreMatch (episode : Episode) (expected : List String) (m : YouTubeMatch) : ScoredMatch :=
  let g := guestScan expected m.title
  let c := channelScore episode m
  let d := durationScore episode m
  let w := wordScore episode m
  { score := g.1 + c.1 + d.1 + w.1
    match_ := m
    guests_found := g.2.1
    guests_missing := g.2.2.1
    reasons := g.2.2.2 ++ c.2 ++ d.2 ++ w.2 }

/-- `scored.sort(key=..., reverse=True)` is a stable descending sort, whose
head is the first element attaining the maximal score; that is the fold that
keeps the current element unless a strictly higher-scored one appears. -/
def pickBest (x : ScoredMatch) (xs : List ScoredMatch) : ScoredMatch :=
  xs.foldl (fun b y => if b.score < y.score then y else b) x

/-- The top-scored candidate of a non-empty candidate list (the `best` local
of `find_best_match`). -/
def bestScored (episode : Episode) (m : YouTubeMatch) (rest : List YouTubeMatch) : ScoredMatch :=
  let expected := extract_guest_names episode.title
  pickBest (scoreMatch episode expected m) (rest.map (scoreMatch episode expected))

/-- The confidence normalization of `find_best_match`: raw score `≤ 0` gives
`0.0`, `≥ 50` gives `1.0`, linear in between. -/
def normalizeScore (raw : Int) : ℚ :=
  if raw ≤ 0 then 0
  else if 50 ≤ raw then 1
  else (raw : ℚ) / 50

/-- Python `round(x, 2)`: round to the nearest multiple of 1/100 (all values
this code rounds are exact multiples of 1/100, so tie-breaking never
matters). -/
def round2 (q : ℚ) : ℚ :=
  ((round (100 * q) : ℤ) : ℚ) / 100

/-- `find_best_match` from src/youtube.py. -/
def find_best_match (episode : Episode) (matches_ : List YouTubeMatch) : MatchResult :=
  match matches_ with
  | [] =>
    { match_ := none
      confidence := 0
      reason := "No YouTube matches found"
      guest_names_found := []
      guest_names_missing := [] }
  | m :: rest =>
    let expected := extract_guest_names episode.title
    let best := bestScored episode m rest
    let confidence0 := normalizeScore best.score
    let confidence :=
      if expected ≠ [] ∧ best.guests_found = [] then min confidence0 (3/10) else confidence0
    { match_ := some best.match_
      confidence := round2 confidence
      reason := if best.reasons ≠ [] then String.intercalate "; " best.reasons else "Basic match"
      guest_names_found := best.guests_found
      guest_names_missing := best.guests_missing }

/-! ## validate_match (src/youtube.py) -/

/-- `validate_match` from src/youtube.py: returns `(is_valid,
rejection_reason)`.  The numeric formatting of the low-confidence reason is
`toString`-based rather than Python `%`-formatting; only its non-emptiness
matters to the properties below. -/
def validate_match (episode : Episode) (match_result : MatchResult) (strict : Bool) :
    Bool × String :=
  match match_result.match_ with
  | none => (false, "No match found")
  | some _ =>
    let threshold : ℚ := if strict then 7/10 else 1/2
    if match_result.confidence < threshold then
      (false, "Low confidence (" ++ toString match_result.confidence ++ " < " ++
        toString threshold ++ ")")
    else
      let expected_guests := extract_guest_names episode.title
      if expected_guests ≠ [] ∧ match_result.guest_names_found = [] then
        (false, "Expected guests " ++ String.intercalate ", " expected_guests ++
          " not found in video title")
      else (true, "")

/-! ## Stratechery blog matching (src/stratechery.py) -/

/-- The noise-word alternation of `normalize_title`'s
`\b(episode|podcast|update|interview|special)\b` substitution. -/
def noiseWords : List String :=
  ["episode", "podcast", "update", "interview", "special"]

/-- `re.sub(r'\b(episode|podcast|update|interview|special)\b', '', s)`:
remove every word-bounded occurrence of a noise word (fuel-indexed scan; the
fuel is the input length, an upper bound on the number of steps). -/
def removeNoiseGo : Nat → Option Char → List Char → List Char
  | 0, _, l => l
  | _ + 1, _, [] => []
  | fuel + 1, prev, c :: t =>
    let hit :=
      if boundaryNoWord prev then
        noiseWords.findSome? fun w =>
          if w.toList.isPrefixOf (c :: t) then
            let rest := (c :: t).drop w.length
            match rest.head? with
            | some d => if wordChar d then none else some (w, rest)
            | none => some (w, rest)
          else none
      else none
    match hit with
    | some (w, rest) =>
      match (w.toList).getLast? with
      | some wlast => removeNoiseGo fuel (some wlast) rest
      | none => removeNoiseGo fuel prev rest
    | none => c :: removeNoiseGo fuel (some c) t

/-- `re.sub(r'\s+', ' ', s)`: collapse whitespace runs to single spaces. -/
def collapseWsGo : Bool → List Char → List Char
  | _, [] => []
  | lastSp, c :: t =>
    if pySpace c then
      if lastSp then collapseWsGo true t else ' ' :: collapseWsGo true t
    else c :: collapseWsGo false t

/-- `normalize_title` from src/stratechery.py: lowercase, strip, remove
episode-number markers and pipe suffixes, drop noise words, replace
punctuation by spaces, collapse whitespace.  (The episode-number scanners are
shared with `build_search_query`; on the already-lowercased input they match
exactly the lowercase patterns of this function.) -/
def normalize_title (title : String) : String :=
  let l := pyStrip (lowerS title).toList
  let l := stripEpNum l
  let l := stripEpWordNum l
  let l := cutPipeSuffix l
  let l := removeNoiseGo l.length none l
  let l := l.map (fun c => if !(wordChar c) && !(pySpace c) then ' ' else c)
  String.mk (pyStrip (collapseWsGo false l))

/-- `title_similarity` from src/stratechery.py, parametrized by `ratio`, the
`difflib.SequenceMatcher(None, ·, ·).ratio()` function of the Python
standard library (external to the repository): similarity of the two
normalized titles. -/
def title_similarity (ratio : String → String → ℚ) (t1 t2 : String) : ℚ :=
  ratio (normalize_title t1) (normalize_title t2)

/-- `_TEMPLATE_WORDS` from src/stratechery.py. -/
def TEMPLATE_WORDS : List String :=
  ["an", "a", "the", "and", "or", "but", "in", "on", "at", "to", "for",
   "of", "with", "by", "is", "it", "as", "from", "into", "about", "over",
   "interview", "co", "founder", "ceo", "chief", "executive", "officer",
   "president", "head", "director", "vice", "senior", "former", "new",
   "earnings", "update", "notes", "thoughts", "additional", "quick",
   "ben", "thompson", "stratechery", "daily", "email", "podcast",
   "its", "their", "our", "your", "his", "her", "how", "why", "what",
   "when", "where", "who", "which", "that", "this", "these", "those"]

/-- Helper for `re.findall(r'\b[a-zA-Z]\w*\b', s)`: the maximal `\w+` runs of
the input (current run accumulated in reverse). -/
def wordRunsGo : List Char → List Char → List (List Char)
  | acc, [] => if acc.isEmpty then [] else [acc.reverse]
  | acc, c :: t =>
    if wordChar c then wordRunsGo (c :: acc) t
    else if acc.isEmpty then wordRunsGo [] t
    else acc.reverse :: wordRunsGo [] t

/-- `re.findall(r'\b[a-zA-Z]\w*\b', s)`: the maximal word-character runs that
start with a letter (a run starting with a digit or underscore has no
interior word boundary, so it yields no match at all). -/
def findWordTokens (l : List Char) : List String :=
  ((wordRunsGo [] l).filter fun r =>
    match r with
    | c :: _ => asciiLetter c
    | [] => false).map String.mk

/-- `extract_content_words` from src/stratechery.py: the set of non-template
words of length `> 2` of the lowercased title. -/
def extract_content_words (title : String) : Finset String :=
  ((findWordTokens (lowerS title).toList).filter fun w =>
    !(TEMPLATE_WORDS.contains w) && 2 < w.length).toFinset

/-- `content_word_overlap` from src/stratechery.py: the fraction of content
words of `title1` that appear in `title2` (1.0 when `title1` has no content
words). -/
def content_word_overlap (title1 title2 : String) : ℚ :=
  let words1 := extract_content_words title1
  if words1.card = 0 then 1
  else
    let words2 := extract_content_words title2
    ((words1 ∩ words2).card : ℚ) / (words1.card : ℚ)

/-- A blog post as listed by the archive crawl: a `{'title', 'url'}` dict. -/
structure Post where
  title : String
  url : String
deriving DecidableEq

/-- The candidate loop of `find_matching_post`, carrying `(best_match,
best_score)`. -/
def fmpGo (ratio : String → String → ℚ) (etitle : String)
    (min_similarity min_content_overlap : ℚ) :
    List Post → Option Post × ℚ → Option Post × ℚ
  | [], acc => acc
  | p :: ps, acc =>
    let sim := title_similarity ratio etitle p.title
    if sim < min_similarity then
      fmpGo ratio etitle min_similarity min_content_overlap ps acc
    else
      let overlap := content_word_overlap etitle p.title
      if overlap < min_content_overlap then
        fmpGo ratio etitle min_similarity min_content_overlap ps acc
      else
        let score := sim * (7/10) + overlap * (3/10)
        if acc.2 < score then
          fmpGo ratio etitle min_similarity min_content_overlap ps (some p, score)
        else
          fmpGo ratio etitle min_similarity min_content_overlap ps acc

/-- `find_matching_post` from src/stratechery.py (thresholds passed
explicitly; the source defaults are 0.4 and 0.3). -/
def find_matching_post (ratio : String → String → ℚ) (episode : Episode)
    (posts : List Post) (min_similarity min_content_overlap : ℚ) : Option Post :=
  if posts.isEmpty then none
  else (fmpGo ratio episode.title min_similarity min_content_overlap posts (none, 0)).1

/-! ## Not-found registry (src/youtube.py) -/

/-- The persisted `_not_found.json` file: absent, or a JSON list of episode
ids. -/
def NotFoundFile : Type := Option (List Int)

/-- `load_not_found`: the empty set when the file does not exist, otherwise
`set(json.load(f))`. -/
def load_not_found : NotFoundFile → Finset Int
  | some l => l.toFinset
  | none => ∅

/-- `save_not_found`: write `list(episode_ids)` as the new file contents.
Python's `list(set)` enumerates the set in an unspecified order; the model
determinizes it as the sorted enumeration (any enumeration with the same
elements behaves identically under `load_not_found`). -/
def save_not_found (episode_ids : Finset Int) : NotFoundFile :=
  some (episode_ids.sort (· ≤ ·))

/-- `mark_not_found`: load, add, save. -/
def mark_not_found (episode_id : Int) (st : NotFoundFile) : NotFoundFile :=
  save_not_found (insert episode_id (load_not_found st))

/-- `is_not_found`: membership in the loaded set. -/
def is_not_found (episode_id : Int) (st : NotFoundFile) : Bool :=
  decide (episode_id ∈ load_not_found st)

/-- `clear_not_found`: load, discard, save. -/
def clear_not_found (episode_id : Int) (st : NotFoundFile) : NotFoundFile :=
  save_not_found ((load_not_found st).erase episode_id)

/-! ## Transcript cache (src/youtube.py) -/

/-- One `{text, start, duration}` transcript segment. -/
structure TranscriptSegment where
  text : String
  start : ℚ
  duration : ℚ
deriving DecidableEq

/-- `Transcript` from src/youtube.py (the dataclass defaults are
`confidence = 1.0`, `match_reason = ""`). -/
structure Transcript where
  episode_id : Int
  video_id : String
  video_url : String
  text : String
  segments : List TranscriptSegment
  confidence : ℚ
  match_reason : String
deriving DecidableEq

/-- The JSON object of one cache file.  `confidence` / `match_reason` are
`Option`s: `none` models a record written by an older version in which the
key is absent. -/
structure CacheRecord where
  episode_id : Int
  video_id : String
  video_url : String
  text : String
  segments : List TranscriptSegment
  confidence : Option ℚ
  match_reason : Option String
deriving DecidableEq

/-- The record-to-`Transcript` construction done by `load_from_cache`
(lines building `cls(...)`): `data.get("confidence", 1.0)` and
`data.get("match_reason", "")` supply defaults for absent keys. -/
def transcriptOfCacheRecord (data : CacheRecord) : Transcript :=
  { episode_id := data.episode_id
    video_id := data.video_id
    video_url := data.video_url
    text := data.text
    segments := data.segments
    confidence := data.confidence.getD 1
    match_reason := data.match_reason.getD "" }

/-- One file of the cache directory: the episode id encoded in its
`{episode_id}_{video_id}.json` name, plus its JSON contents. -/
structure CacheFile where
  name_episode_id : Int
  data : CacheRecord
deriving DecidableEq

/-- `Transcript.load_from_cache`: the `cache_dir.glob(f"{episode_id}_*.json")`
lookup modelled as finding the first file whose name carries the requested
episode id, then building the `Transcript` from its record. -/
def load_from_cache (episode_id : Int) (cacheFiles : List CacheFile) : Option Transcript :=
  (cacheFiles.find? fun f => f.name_episode_id == episode_id).map
    fun f => transcriptOfCacheRecord f.data

/-! ## Theorems -/

/-- `content_word_overlap` is 1 whenever the first title's content words are
all contained in the second's. -/
theorem content_word_overlap_of_subset (a b : String)
    (hab : extract_content_words a ⊆ extract_content_words b) :
    content_word_overlap a b = 1 := by
  by_cases hempty : (extract_content_words a).card = 0
  · simp [content_word_overlap, hempty]
  · have hinter : extract_content_words a ∩ extract_content_words b =
        extract_content_words a := Finset.inter_eq_left.mpr hab
    simp only [content_word_overlap, if_neg hempty, hinter]
    rw [div_self]
    exact_mod_cast hempty

/-- C8: `content_word_overlap(title1, title2)` is 1.0 whenever every content
word of `title1` is a content word of `title2`; in particular self-overlap of
a non-empty title is 1.0, and a title with zero content words has overlap 1.0
against any candidate (so it never fails the content-word gate). -/
theorem c8_content_word_overlap_total (t1 t2 t3 t4 t5 : String)
    (h12 : extract_content_words t1 ⊆ extract_content_words t2)
    (h3 : t3 ≠ "")
    (h4 : extract_content_words t4 = ∅) :
    content_word_overlap t1 t2 = 1 ∧
    content_word_overlap t3 t3 = 1 ∧
    content_word_overlap t4 t5 = 1 := by
  refine ⟨content_word_overlap_of_subset t1 t2 h12,
    content_word_overlap_of_subset t3 t3 le_rfl, ?_⟩
  have h4c : (extract_content_words t4).card = 0 := by
    rw [h4]
    rfl
  simp [content_word_overlap, h4c]

/-- Witness for C8 at concrete titles. -/
theorem c8_witness :
    content_word_overlap "orange" "orange juice" = 1 ∧
    content_word_overlap "x" "x" = 1 ∧
    content_word_overlap "the" "anything" = 1 :=
  c8_content_word_overlap_total "orange" "orange juice" "x" "the" "anything"
    (by decide) (by decide) (by decide)

/-- C9: marking an episode as not-found, then clearing it, leaves
`is_not_found` false, from any starting registry state; and a save/load
round-trip of the empty set yields the empty set. -/
theorem c9_registry_clear_and_roundtrip (st : NotFoundFile) (episode_id : Int) :
    is_not_found episode_id (clear_not_found episode_id (mark_not_found episode_id st)) = false ∧
    load_not_found (save_not_found ∅) = ∅ := by
  constructor
  · unfold is_not_found clear_not_found mark_not_found save_not_found load_not_found
    simp
  · unfold save_not_found load_not_found
    simp

/-- C10: a cache record lacking the `confidence` and `match_reason` keys
loads as a `Transcript` with `confidence = 1.0` and `match_reason = ""`,
with all present fields taken from the record unchanged. -/
theorem c10_cache_backward_compat (episode_id : Int) (cacheFiles : List CacheFile)
    (f : CacheFile)
    (hfind : cacheFiles.find? (fun g => g.name_episode_id == episode_id) = some f)
    (hconf : f.data.confidence = none)
    (hreason : f.data.match_reason = none) :
    load_from_cache episode_id cacheFiles = some
      { episode_id := f.data.episode_id
        video_id := f.data.video_id
        video_url := f.data.video_url
        text := f.data.text
        segments := f.data.segments
        confidence := 1
        match_reason := "" } := by
  unfold load_from_cache transcriptOfCacheRecord
  rw [hfind]
  simp [hconf, hreason]

/-- Witness for C10 at a concrete one-file cache. -/
theorem c10_witness :
    load_from_cache 7
      [{ name_episode_id := 7
         data :=
           { episode_id := 7, video_id := "abc", video_url := "u", text := "t",
             segments := [], confidence := none, match_reason := none } }] = some
      { episode_id := 7, video_id := "abc", video_url := "u", text := "t",
        segments := [], confidence := 1, match_reason := "" } :=
  c10_cache_backward_compat 7
    [{ name_episode_id := 7
       data :=
         { episode_id := 7, video_id := "abc", video_url := "u", text := "t",
           segments := [], confidence := none, match_reason := none } }]
    { name_episode_id := 7
      data :=
        { episode_id := 7, video_id := "abc", video_url := "u", text := "t",
          segments := [], confidence := none, match_reason := none } }
    rfl rfl rfl

/-- C6: on the episode title `#45 - Sam Altman on the Future of AI | TechPod`,
the query builder's title cleaning strips the leading `#45 - ` and the
trailing ` | TechPod`, and the `Name Name on ...` heuristic extracts
`Sam Altman` from the cleaned title. -/
theorem c6_sam_altman_scenario :
    cleanEpisodeTitle "#45 - Sam Altman on the Future of AI | TechPod" =
      "Sam Altman on the Future of AI" ∧
    extract_guest_names (cleanEpisodeTitle "#45 - Sam Altman on the Future of AI | TechPod") =
      ["Sam Altman"] := by
  constructor
  · rfl
  · rfl

/-- A string with a non-empty left part stays non-empty under append. -/
theorem str_append_left_ne_empty (a b : String) (h : a.length ≠ 0) : a ++ b ≠ "" := by
  intro hc
  have hlen : (a ++ b).length = 0 := by rw [hc]; rfl
  rw [String.length_append] at hlen
  omega

/-- C2: `validate_match` rejects exactly when the match is `None`, or the
confidence is below the threshold (0.5 normal / 0.7 strict), or the episode
has extractable guest names none of which were confirmed; every rejection
carries a non-empty reason; and for an episode with zero extractable guest
names the zero-guests-confirmed rule never causes a rejection. -/
theorem c2_validate_match_rejection (episode : Episode) (match_result : MatchResult)
    (strict : Bool) :
    ((validate_match episode match_result strict).1 = false ↔
      (match_result.match_ = none ∨
       match_result.confidence < (if strict then 7/10 else 1/2) ∨
       (extract_guest_names episode.title ≠ [] ∧ match_result.guest_names_found = []))) ∧
    ((validate_match episode match_result strict).1 = false →
      (validate_match episode match_result strict).2 ≠ "") ∧
    (extract_guest_names episode.title = [] →
      ((validate_match episode match_result strict).1 = false ↔
        (match_result.match_ = none ∨
         match_result.confidence < (if strict then 7/10 else 1/2)))) := by
  rcases match_result with ⟨om, conf, reason, gf, gm⟩
  cases om with
  | none =>
    refine ⟨by simp [validate_match], ?_, fun _ => by simp [validate_match]⟩
    intro
    show "No match found" ≠ ""
    decide
  | some m =>
    constructor
    · simp only [validate_match]
      split_ifs with h1 h2 <;> simp_all
    · constructor
      · simp only [validate_match]
        by_cases hc : conf < (if strict then (7 : ℚ)/10 else 1/2)
        · rw [if_pos hc]
          intro _ habs
          have h1 := congrArg String.length habs
          simp only [String.length_append] at h1
          have h2 : 0 < ("Low confidence (" : String).length := by decide
          have h3 : ("" : String).length = 0 := rfl
          omega
        · rw [if_neg hc]
          by_cases hg : extract_guest_names episode.title ≠ [] ∧ gf = []
          · rw [if_pos hg]
            intro _ habs
            have h1 := congrArg String.length habs
            simp only [String.length_append] at h1
            have h2 : 0 < ("Expected guests " : String).length := by decide
            have h3 : ("" : String).length = 0 := rfl
            omega
          · rw [if_neg hg]
            simp
      · intro hempty
        simp only [validate_match]
        split_ifs with h1 h2 <;> simp_all

/-- Witness for C2: an empty `MatchResult` against a guest-free title is
rejected exactly by the no-match / low-confidence rules. -/
theorem c2_witness :
    (validate_match
        { id := 1, title := "zzz", podcast_name := "p", podcast_author := "",
          duration_seconds := 0 }
        { match_ := none, confidence := 0, reason := "", guest_names_found := [],
          guest_names_missing := [] } false).1 = false ↔
      (({ match_ := none, confidence := 0, reason := "", guest_names_found := [],
          guest_names_missing := [] } : MatchResult).match_ = none ∨
       ({ match_ := none, confidence := 0, reason := "", guest_names_found := [],
          guest_names_missing := [] } : MatchResult).confidence <
         (if (false : Bool) then 7/10 else 1/2)) :=
  (c2_validate_match_rejection
    { id := 1, title := "zzz", podcast_name := "p", podcast_author := "",
      duration_seconds := 0 }
    { match_ := none, confidence := 0, reason := "", guest_names_found := [],
      guest_names_missing := [] } false).2.2 rfl

/-- C7: for an episode whose title yields no extractable guest names, the
`guest_focused` variant contributes no query of its own: it builds the same
query string as `primary`, and the fallback search behaves exactly as if the
`guest_focused` variant were not in the variant list (no separate
guest-focused search is ever issued). -/
theorem c7_guest_focused_skipped (episode : Episode)
    (searchFn : String → List YouTubeMatch)
    (hguests : extract_guest_names episode.title = []) :
    build_search_query episode "guest_focused" = build_search_query episode "primary" ∧
    search_youtube_with_fallback searchFn episode =
      searchFallbackOver searchFn episode ["primary", "short_title", "title_only"] := by
  have hq : build_search_query episode "guest_focused" = build_search_query episode "primary" := by
    by_cases hg : inlineGuestNames (cleanEpisodeTitle episode.title) = "" <;>
      simp [build_search_query, hg]
  refine ⟨hq, ?_⟩
  unfold search_youtube_with_fallback
  simp only [searchFallbackOver, hq]
  by_cases h0 : build_search_query episode "primary" = ""
  · simp [h0]
  · simp only [if_neg h0]
    cases hs : searchFn (build_search_query episode "primary") <;> simp

/-- `round2` is the identity on integer multiples of 1/100. -/
theorem round2_intCast_div (n : ℤ) : round2 ((n : ℚ) / 100) = (n : ℚ) / 100 := by
  unfold round2
  have h : (100 : ℚ) * ((n : ℚ) / 100) = (n : ℚ) := by field_simp
  rw [h, round_intCast]

/-- `min` commutes with division by 100 on integer casts. -/
theorem min_intCast_div (a b : ℤ) :
    min ((a : ℚ) / 100) ((b : ℚ) / 100) = ((min a b : ℤ) : ℚ) / 100 := by
  rcases le_total a b with h | h
  · rw [min_eq_left h, min_eq_left]
    have : (a : ℚ) ≤ (b : ℚ) := by exact_mod_cast h
    gcongr
  · rw [min_eq_right h, min_eq_right]
    have : (b : ℚ) ≤ (a : ℚ) := by exact_mod_cast h
    gcongr

/-- Every normalized score is an integer multiple of 1/100. -/
theorem normalizeScore_repr (raw : Int) :
    ∃ n : ℤ, normalizeScore raw = (n : ℚ) / 100 := by
  unfold normalizeScore
  split_ifs
  · exact ⟨0, by norm_num⟩
  · exact ⟨100, by norm_num⟩
  · refine ⟨2 * raw, ?_⟩
    push_cast
    ring

/-- The capped confidence of `find_best_match` is an integer multiple of
1/100, so `round(·, 2)` leaves it unchanged. -/
theorem cappedConf_round2 (raw : Int) (cond : Prop) [Decidable cond] :
    round2 (if cond then min (normalizeScore raw) (3/10) else normalizeScore raw) =
      (if cond then min (normalizeScore raw) (3/10) else normalizeScore raw) := by
  obtain ⟨n, hn⟩ := normalizeScore_repr raw
  have h310 : (3 : ℚ) / 10 = ((30 : ℤ) : ℚ) / 100 := by norm_num
  split_ifs
  · rw [hn, h310, min_intCast_div, round2_intCast_div]
  · rw [hn, round2_intCast_div]

/-- The confidence field of `find_best_match` on a non-empty list, with the
`round(·, 2)` eliminated. -/
theorem fbm_cons_confidence (episode : Episode) (m : YouTubeMatch)
    (rest : List YouTubeMatch) :
    (find_best_match episode (m :: rest)).confidence =
      (if extract_guest_names episode.title ≠ [] ∧ (bestScored episode m rest).guests_found = []
       then min (normalizeScore (bestScored episode m rest).score) (3/10)
       else normalizeScore (bestScored episode m rest).score) := by
  show round2 _ = _
  exact cappedConf_round2 _ _

/-- `normalizeScore` never drops below 0. -/
theorem normalizeScore_nonneg (raw : Int) : 0 ≤ normalizeScore raw := by
  unfold normalizeScore
  split_ifs with h1 h2
  · exact le_refl 0
  · norm_num
  · have h : (0 : ℚ) < (raw : ℚ) := by
      have := not_le.mp (by assumption : ¬raw ≤ 0)
      exact_mod_cast this
    positivity

/-- C1 (amended): an empty candidate list yields `match = None` with
confidence 0.0; a non-empty candidate list always yields the top-scored
candidate as the match (never `None`), and its confidence is strictly
positive exactly when the best raw score is strictly positive (so a returned
match can carry confidence 0.0 when its raw score is `≤ 0`). -/
theorem c1_confidence_zero_amended (episode : Episode) (m : YouTubeMatch)
    (rest : List YouTubeMatch) :
    (find_best_match episode []).match_ = none ∧
    (find_best_match episode []).confidence = 0 ∧
    (find_best_match episode (m :: rest)).match_ = some (bestScored episode m rest).match_ ∧
    (0 < (find_best_match episode (m :: rest)).confidence ↔
      0 < (bestScored episode m rest).score) := by
  refine ⟨rfl, rfl, rfl, ?_⟩
  rw [fbm_cons_confidence]
  rcases le_or_lt (bestScored episode m rest).score 0 with hle | hpos
  · have hn : normalizeScore (bestScored episode m rest).score = 0 := by
      unfold normalizeScore
      rw [if_pos hle]
    constructor
    · intro hc
      exfalso
      split_ifs at hc with hcond
      · rw [hn] at hc
        have : min (0 : ℚ) (3/10) = 0 := by norm_num
        rw [this] at hc
        exact lt_irrefl 0 hc
      · rw [hn] at hc
        exact lt_irrefl 0 hc
    · intro hs
      exact absurd hs (not_lt.mpr hle)
  · have hn : 0 < normalizeScore (bestScored episode m rest).score := by
      unfold normalizeScore
      rw [if_neg (not_le.mpr hpos)]
      split_ifs
      · norm_num
      · positivity
    constructor
    · intro _
      exact hpos
    · intro _
      split_ifs
      · exact lt_min hn (by norm_num)
      · exact hn

/-- C1 counterexample: a concrete episode and single candidate with raw score
0 — the returned `MatchResult` has a non-`None` match yet confidence exactly
0.0, refuting the claimed `confidence == 0.0 ↔ chosen is None` equivalence. -/
theorem c1_counterexample :
    (find_best_match
        { id := 1, title := "zzz qqq", podcast_name := "pod", podcast_author := "",
          duration_seconds := 0 }
        [{ video_id := "vid", title := "xxx yyy", url := "u", channel := none,
           duration := none }]).confidence = 0 ∧
    (find_best_match
        { id := 1, title := "zzz qqq", podcast_name := "pod", podcast_author := "",
          duration_seconds := 0 }
        [{ video_id := "vid", title := "xxx yyy", url := "u", channel := none,
           duration := none }]).match_ ≠ none := by
  constructor
  · rw [fbm_cons_confidence]
    have hg : extract_guest_names "zzz qqq" = [] := by decide
    have hs : (bestScored
        { id := 1, title := "zzz qqq", podcast_name := "pod", podcast_author := "",
          duration_seconds := 0 }
        { video_id := "vid", title := "xxx yyy", url := "u", channel := none,
          duration := none } []).score = 0 := by decide
    simp [hg, hs, normalizeScore]
  · decide

/-- C3: for a non-empty candidate list, the confidence of `find_best_match`
is the linear normalization of the best candidate's integer raw score (0.0
at `≤ 0`, 1.0 at `≥ 50`, `raw/50` in between), capped at 0.3 whenever the
episode title yields guest names and the best candidate confirmed none. -/
theorem c3_confidence_from_raw_score (episode : Episode) (m : YouTubeMatch)
    (rest : List YouTubeMatch) :
    (find_best_match episode (m :: rest)).confidence =
      (if extract_guest_names episode.title ≠ [] ∧ (bestScored episode m rest).guests_found = []
       then
         min (if (bestScored episode m rest).score ≤ 0 then 0
              else if 50 ≤ (bestScored episode m rest).score then 1
              else ((bestScored episode m rest).score : ℚ) / 50) (3/10)
       else
         (if (bestScored episode m rest).score ≤ 0 then 0
          else if 50 ≤ (bestScored episode m rest).score then 1
          else ((bestScored episode m rest).score : ℚ) / 50)) := by
  rw [fbm_cons_confidence]
  rfl

/-- The non-guest signals of the scoring loop (channel + duration + shared
words), i.e. the candidate's raw score minus its guest-name term. -/
def otherSignals (episode : Episode) (m : YouTubeMatch) : Int :=
  (channelScore episode m).1 + (durationScore episode m).1 + (wordScore episode m).1

/-- The confidence `find_best_match` assigns as a function of the scoring
signals: `other` the non-guest score, `total` the number of expected guest
names, `found` the number of them confirmed in the candidate title (each
confirmed guest contributes `+20`, each missing one `-25`; the result is
normalized, capped at 0.3 when `total ≠ 0` and `found = 0`, and rounded to
two decimals). -/
def confidenceFromSignals (other : Int) (total found : Nat) : ℚ :=
  let raw := other + (20 * (found : Int) - 25 * ((total - found : Nat) : Int))
  round2 (if total ≠ 0 ∧ found = 0 then min (normalizeScore raw) (3/10) else normalizeScore raw)

/-- The guest-scan totals: the accumulated score is `20·found − 25·missing`,
and found plus missing enumerate all expected guests. -/
theorem guestScan_totals (gs : List String) (t : String) :
    (guestScan gs t).1 =
      20 * ((guestScan gs t).2.1.length : Int) - 25 * ((guestScan gs t).2.2.1.length : Int) ∧
    (guestScan gs t).2.1.length + (guestScan gs t).2.2.1.length = gs.length := by
  induction gs with
  | nil => simp [guestScan]
  | cons g gs ih =>
    obtain ⟨ihs, ihl⟩ := ih
    by_cases h : name_appears_in_text g t
    · simp only [guestScan, h, ite_true, List.length_cons]
      constructor
      · push_cast
        omega
      · omega
    · simp only [guestScan, h, Bool.false_eq_true, ite_false, List.length_cons]
      constructor
      · push_cast
        omega
      · omega

/-- `normalizeScore` never exceeds 1. -/
theorem normalizeScore_le_one (raw : Int) : normalizeScore raw ≤ 1 := by
  unfold normalizeScore
  split_ifs with h1 h2
  · norm_num
  · exact le_refl 1
  · rw [div_le_one (by norm_num : (0:ℚ) < 50)]
    exact_mod_cast (by omega : raw ≤ (50:ℤ))

/-- `normalizeScore` is monotone in the raw score. -/
theorem normalizeScore_mono {a b : Int} (h : a ≤ b) :
    normalizeScore a ≤ normalizeScore b := by
  by_cases ha0 : a ≤ 0
  · have hA : normalizeScore a = 0 := by
      unfold normalizeScore
      rw [if_pos ha0]
    rw [hA]
    exact normalizeScore_nonneg b
  · by_cases hb50 : 50 ≤ b
    · have hB : normalizeScore b = 1 := by
        unfold normalizeScore
        rw [if_neg (by omega), if_pos hb50]
      rw [hB]
      exact normalizeScore_le_one a
    · have hA : normalizeScore a = (a : ℚ) / 50 := by
        unfold normalizeScore
        rw [if_neg ha0, if_neg (by omega)]
      have hB : normalizeScore b = (b : ℚ) / 50 := by
        unfold normalizeScore
        rw [if_neg (by omega), if_neg hb50]
      rw [hA, hB]
      have hab : (a : ℚ) ≤ (b : ℚ) := by exact_mod_cast h
      linarith

/-- `round2` is monotone. -/
theorem round2_mono {a b : ℚ} (h : a ≤ b) : round2 a ≤ round2 b := by
  unfold round2
  have hr : round (100 * a) ≤ round (100 * b) := by
    rw [round_eq, round_eq]
    exact Int.floor_le_floor (by linarith)
  have hc : ((round (100 * a) : ℤ) : ℚ) ≤ ((round (100 * b) : ℤ) : ℚ) := by exact_mod_cast hr
  linarith

/-- C5: `find_best_match`'s confidence for a single candidate is exactly
`confidenceFromSignals` of its non-guest score, total expected guests, and
confirmed-guest count; and that function is monotonically non-decreasing in
the number of confirmed guests, all other signals held fixed. -/
theorem c5_confidence_monotone_in_confirmed_guests (episode : Episode) (m : YouTubeMatch)
    (other : Int) (total found foundB : Nat)
    (h1 : found ≤ foundB) (h2 : foundB ≤ total) :
    (find_best_match episode [m]).confidence =
      confidenceFromSignals (otherSignals episode m)
        (extract_guest_names episode.title).length
        (guestScan (extract_guest_names episode.title) m.title).2.1.length ∧
    confidenceFromSignals other total found ≤ confidenceFromSignals other total foundB := by
  constructor
  · -- the bridge: find_best_match on one candidate computes confidenceFromSignals
    have hbest : bestScored episode m [] =
        scoreMatch episode (extract_guest_names episode.title) m := rfl
    obtain ⟨hscore, htot⟩ := guestScan_totals (extract_guest_names episode.title) m.title
    have hraw : (scoreMatch episode (extract_guest_names episode.title) m).score =
        otherSignals episode m +
          (20 * ((guestScan (extract_guest_names episode.title) m.title).2.1.length : Int) -
           25 * (((extract_guest_names episode.title).length -
                  (guestScan (extract_guest_names episode.title) m.title).2.1.length : Nat) : Int)) := by
      show (guestScan (extract_guest_names episode.title) m.title).1 +
          (channelScore episode m).1 + (durationScore episode m).1 + (wordScore episode m).1 = _
      unfold otherSignals
      push_cast
      omega
    have hgf : (scoreMatch episode (extract_guest_names episode.title) m).guests_found =
        (guestScan (extract_guest_names episode.title) m.title).2.1 := rfl
    have hcond : (extract_guest_names episode.title ≠ [] ∧
        (scoreMatch episode (extract_guest_names episode.title) m).guests_found = []) ↔
        ((extract_guest_names episode.title).length ≠ 0 ∧
         (guestScan (extract_guest_names episode.title) m.title).2.1.length = 0) := by
      rw [hgf]
      constructor
      · rintro ⟨hne, hfe⟩
        exact ⟨by simpa [List.length_eq_zero] using hne, by simp [hfe]⟩
      · rintro ⟨hne, hfe⟩
        exact ⟨by simpa [List.length_eq_zero] using hne, List.length_eq_zero.mp hfe⟩
    have hrhs : confidenceFromSignals (otherSignals episode m)
        (extract_guest_names episode.title).length
        (guestScan (extract_guest_names episode.title) m.title).2.1.length =
        (if (extract_guest_names episode.title).length ≠ 0 ∧
            (guestScan (extract_guest_names episode.title) m.title).2.1.length = 0
         then min (normalizeScore (otherSignals episode m +
            (20 * ((guestScan (extract_guest_names episode.title) m.title).2.1.length : Int) -
             25 * (((extract_guest_names episode.title).length -
                    (guestScan (extract_guest_names episode.title) m.title).2.1.length : Nat) : Int)))) (3/10)
         else normalizeScore (otherSignals episode m +
            (20 * ((guestScan (extract_guest_names episode.title) m.title).2.1.length : Int) -
             25 * (((extract_guest_names episode.title).length -
                    (guestScan (extract_guest_names episode.title) m.title).2.1.length : Nat) : Int)))) := by
      unfold confidenceFromSignals
      exact cappedConf_round2 _ _
    rw [fbm_cons_confidence, hbest, hrhs, hraw]
    exact if_congr hcond rfl rfl
  · -- monotonicity
    unfold confidenceFromSignals
    apply round2_mono
    have hmono : normalizeScore (other + (20 * (found : Int) -
        25 * ((total - found : Nat) : Int))) ≤
        normalizeScore (other + (20 * (foundB : Int) - 25 * ((total - foundB : Nat) : Int))) := by
      apply normalizeScore_mono
      omega
    rcases Nat.eq_zero_or_pos found with hf0 | hfpos
    · subst hf0
      rcases Nat.eq_zero_or_pos foundB with hfB0 | hfBpos
      · subst hfB0
        exact le_refl _
      · have hne : foundB ≠ 0 := Nat.pos_iff_ne_zero.mp hfBpos
        by_cases htot : total ≠ 0
        · rw [if_pos ⟨htot, rfl⟩, if_neg (by simp [hne])]
          exact le_trans (min_le_left _ _) hmono
        · rw [if_neg (by simp [htot] : ¬(total ≠ 0 ∧ (0:Nat) = 0)),
             if_neg (by simp [hne] : ¬(total ≠ 0 ∧ foundB = 0))]
          exact hmono
    · have hne : found ≠ 0 := Nat.pos_iff_ne_zero.mp hfpos
      have hneB : foundB ≠ 0 := by omega
      rw [if_neg (by simp [hne] : ¬(total ≠ 0 ∧ found = 0)),
         if_neg (by simp [hneB] : ¬(total ≠ 0 ∧ foundB = 0))]
      exact hmono

/-- Witness for C5 at concrete signal values. -/
theorem c5_witness :
    (find_best_match
        { id := 1, title := "zzz", podcast_name := "p", podcast_author := "",
          duration_seconds := 0 }
        [{ video_id := "v", title := "t", url := "u", channel := none,
           duration := none }]).confidence =
      confidenceFromSignals
        (otherSignals
          { id := 1, title := "zzz", podcast_name := "p", podcast_author := "",
            duration_seconds := 0 }
          { video_id := "v", title := "t", url := "u", channel := none, duration := none })
        (extract_guest_names "zzz").length
        (guestScan (extract_guest_names "zzz") "t").2.1.length ∧
    confidenceFromSignals 10 2 1 ≤ confidenceFromSignals 10 2 2 :=
  c5_confidence_monotone_in_confirmed_guests
    { id := 1, title := "zzz", podcast_name := "p", podcast_author := "",
      duration_seconds := 0 }
    { video_id := "v", title := "t", url := "u", channel := none, duration := none }
    10 2 1 2 (by norm_num) (by norm_num)

/-- Both gates of `find_matching_post`: title similarity at least
`min_similarity` and content-word overlap at least `min_content_overlap`. -/
def passesGates (ratio : String → String → ℚ) (etitle : String)
    (min_similarity min_content_overlap : ℚ) (p : Post) : Prop :=
  min_similarity ≤ title_similarity ratio etitle p.title ∧
  min_content_overlap ≤ content_word_overlap etitle p.title

/-- The combined ranking score `0.7·similarity + 0.3·overlap` of
`find_matching_post`. -/
def combinedScore (ratio : String → String → ℚ) (etitle : String) (p : Post) : ℚ :=
  title_similarity ratio etitle p.title * (7/10) + content_word_overlap etitle p.title * (3/10)

/-- The loop of `find_matching_post` never decreases the best score. -/
theorem fmpGo_score_mono (ratio : String → String → ℚ) (etitle : String)
    (msim mov : ℚ) (ps : List Post) (acc : Option Post × ℚ) :
    acc.2 ≤ (fmpGo ratio etitle msim mov ps acc).2 := by
  induction ps generalizing acc with
  | nil => exact le_refl _
  | cons p ps ih =>
    simp only [fmpGo]
    split_ifs with hsim hov hsc
    · exact ih acc
    · exact ih acc
    · exact le_trans (le_of_lt hsc) (ih (some p, _))
    · exact ih acc

/-- The loop of `find_matching_post` either keeps its accumulator or ends on
some gate-passing candidate from the remaining list, with the best score
equal to that candidate's combined score. -/
theorem fmpGo_result (ratio : String → String → ℚ) (etitle : String)
    (msim mov : ℚ) (ps : List Post) (acc : Option Post × ℚ) :
    fmpGo ratio etitle msim mov ps acc = acc ∨
    ∃ p, p ∈ ps ∧ passesGates ratio etitle msim mov p ∧
      fmpGo ratio etitle msim mov ps acc = (some p, combinedScore ratio etitle p) := by
  induction ps generalizing acc with
  | nil => exact Or.inl rfl
  | cons p ps ih =>
    simp only [fmpGo]
    split_ifs with hsim hov hsc
    · rcases ih acc with h | ⟨q, hq, hpass, heq⟩
      · exact Or.inl h
      · exact Or.inr ⟨q, List.mem_cons_of_mem _ hq, hpass, heq⟩
    · rcases ih acc with h | ⟨q, hq, hpass, heq⟩
      · exact Or.inl h
      · exact Or.inr ⟨q, List.mem_cons_of_mem _ hq, hpass, heq⟩
    · rcases ih (some p, title_similarity ratio etitle p.title * (7/10) +
          content_word_overlap etitle p.title * (3/10)) with h | ⟨q, hq, hpass, heq⟩
      · refine Or.inr ⟨p, List.mem_cons_self _ _, ⟨not_lt.mp hsim, not_lt.mp hov⟩, ?_⟩
        rw [h]
        rfl
      · exact Or.inr ⟨q, List.mem_cons_of_mem _ hq, hpass, heq⟩
    · rcases ih acc with h | ⟨q, hq, hpass, heq⟩
      · exact Or.inl h
      · exact Or.inr ⟨q, List.mem_cons_of_mem _ hq, hpass, heq⟩

/-- Every gate-passing candidate's combined score is bounded by the final
best score of the loop. -/
theorem fmpGo_score_bound (ratio : String → String → ℚ) (etitle : String)
    (msim mov : ℚ) (ps : List Post) (acc : Option Post × ℚ) (q : Post)
    (hq : q ∈ ps) (hpass : passesGates ratio etitle msim mov q) :
    combinedScore ratio etitle q ≤ (fmpGo ratio etitle msim mov ps acc).2 := by
  induction ps generalizing acc with
  | nil => cases hq
  | cons p ps ih =>
    rcases List.mem_cons.mp hq with rfl | hmem
    · simp only [fmpGo]
      rw [if_neg (not_lt.mpr hpass.1), if_neg (not_lt.mpr hpass.2)]
      split_ifs with hsc
      · exact fmpGo_score_mono ratio etitle msim mov ps
          (some q, title_similarity ratio etitle q.title * (7/10) +
            content_word_overlap etitle q.title * (3/10))
      · exact le_trans (not_lt.mp hsc)
          (fmpGo_score_mono ratio etitle msim mov ps acc)
    · simp only [fmpGo]
      split_ifs with hsim hov hsc
      · exact ih acc hmem
      · exact ih acc hmem
      · exact ih _ hmem
      · exact ih acc hmem

/-- A gate-passing candidate (with the default thresholds) has combined score
at least 0.37, in particular strictly positive. -/
theorem passes_default_score_pos (ratio : String → String → ℚ) (etitle : String)
    (q : Post) (hpass : passesGates ratio etitle (2/5) (3/10) q) :
    0 < combinedScore ratio etitle q := by
  obtain ⟨hsim, hov⟩ := hpass
  unfold combinedScore
  nlinarith

/-- C4: with the default thresholds (0.4 similarity, 0.3 content-word
overlap), `find_matching_post` returns `None` exactly when no post passes
both gates, and any returned post passes both gates and maximizes the
combined score `0.7·similarity + 0.3·overlap` among all gate-passing posts —
for every similarity oracle `ratio`. -/
theorem c4_find_matching_post_gates_and_ranking (ratio : String → String → ℚ)
    (episode : Episode) (posts : List Post) :
    (find_matching_post ratio episode posts (2/5) (3/10) = none ↔
      ∀ p ∈ posts, ¬ passesGates ratio episode.title (2/5) (3/10) p) ∧
    (∀ p, find_matching_post ratio episode posts (2/5) (3/10) = some p →
      p ∈ posts ∧ passesGates ratio episode.title (2/5) (3/10) p ∧
      ∀ q ∈ posts, passesGates ratio episode.title (2/5) (3/10) q →
        combinedScore ratio episode.title q ≤ combinedScore ratio episode.title p) := by
  by_cases hempty : posts.isEmpty
  · have hnil : posts = [] := List.isEmpty_iff.mp hempty
    subst hnil
    refine ⟨⟨fun _ => by simp, fun _ => by simp [find_matching_post]⟩, ?_⟩
    intro p hp
    simp [find_matching_post] at hp
  · have hfm : find_matching_post ratio episode posts (2/5) (3/10) =
        (fmpGo ratio episode.title (2/5) (3/10) posts (none, 0)).1 := by
      unfold find_matching_post
      rw [if_neg hempty]
    constructor
    · constructor
      · intro hnone q hq hpass
        have hbound := fmpGo_score_bound ratio episode.title (2/5) (3/10) posts
          (none, 0) q hq hpass
        rcases fmpGo_result ratio episode.title (2/5) (3/10) posts (none, 0) with
          heq | ⟨p, _, _, heq⟩
        · rw [heq] at hbound
          exact absurd (lt_of_lt_of_le (passes_default_score_pos ratio episode.title q hpass)
            hbound) (lt_irrefl 0)
        · rw [hfm, heq] at hnone
          cases hnone
      · intro hnopass
        rcases fmpGo_result ratio episode.title (2/5) (3/10) posts (none, 0) with
          heq | ⟨p, hp, hpass, heq⟩
        · rw [hfm, heq]
        · exact absurd hpass (hnopass p hp)
    · intro p hp
      rcases fmpGo_result ratio episode.title (2/5) (3/10) posts (none, 0) with
        heq | ⟨q, hq, hpass, heq⟩
      · rw [hfm, heq] at hp
        cases hp
      · rw [hfm, heq] at hp
        have hpq : q = p := by
          injection hp
        subst hpq
        refine ⟨hq, hpass, ?_⟩
        intro r hr hrpass
        have := fmpGo_score_bound ratio episode.title (2/5) (3/10) posts (none, 0) r hr hrpass
        rw [heq] at this
        exact this

/-- Witness for C4 at a concrete similarity oracle, episode and post list. -/
theorem c4_witness :
    combinedScore (fun _ _ => 1) "orange"
      { title := "orange", url := "u1" } ≤
    combinedScore (fun _ _ => 1) "orange"
      { title := "orange", url := "u1" } := by
  have hov : content_word_overlap "orange" "orange" = 1 :=
    content_word_overlap_of_subset "orange" "orange" le_rfl
  have hfind : find_matching_post (fun _ _ => (1 : ℚ))
      { id := 1, title := "orange", podcast_name := "p", podcast_author := "",
        duration_seconds := 0 }
      [{ title := "orange", url := "u1" }] (2/5) (3/10) =
      some { title := "orange", url := "u1" } := by
    norm_num [find_matching_post, fmpGo, title_similarity, hov]
  have hpass : passesGates (fun _ _ => (1 : ℚ)) "orange" (2/5) (3/10)
      { title := "orange", url := "u1" } := by
    constructor
    · norm_num [title_similarity]
    · show (3 : ℚ)/10 ≤ content_word_overlap "orange" "orange"
      rw [hov]
      norm_num
  exact ((c4_find_matching_post_gates_and_ranking (fun _ _ => 1)
      { id := 1, title := "orange", podcast_name := "p", podcast_author := "",
        duration_seconds := 0 }
      [{ title := "orange", url := "u1" }]).2
    { title := "orange", url := "u1" } hfind).2.2
    { title := "orange", url := "u1" } (List.mem_singleton.mpr rfl) hpass

/-- Witness for C7 at a concrete guest-free episode and search oracle. -/
theorem c7_witness :
    build_search_query
      { id := 1, title := "zzz", podcast_name := "p", podcast_author := "",
        duration_seconds := 0 } "guest_focused" =
    build_search_query
      { id := 1, title := "zzz", podcast_name := "p", podcast_author := "",
        duration_seconds := 0 } "primary" ∧
    search_youtube_with_fallback (fun _ => [])
      { id := 1, title := "zzz", podcast_name := "p", podcast_author := "",
        duration_seconds := 0 } =
      searchFallbackOver (fun _ => [])
        { id := 1, title := "zzz", podcast_name := "p", podcast_author := "",
          duration_seconds := 0 } ["primary", "short_title", "title_only"] :=
  c7_guest_focused_skipped
    { id := 1, title := "zzz", podcast_name := "p", podcast_author := "",
      duration_seconds := 0 }
    (fun _ => []) rfl

end Podcastwise
